import Mathlib

/-!
Verification of the MediaCMS directory-watching media auto-import core.

The definitions below are a shallow embedding of the two watch strategies of
the repository:

* the poll/scan strategy of
  `files/management/commands/watch_media_directories.py`
  (`Command.process_config`, `Command.handle`), which is gated on the
  durable `MediaAutoImportRecord` ledger of `files/models/auto_import.py`;
* the event-driven strategy of `files/directory_monitor.py`
  (`MediaFileHandler` with its debounced pending-files map,
  `_import_media_file`, `_move_processed_file`, and `DirectoryMonitor.start`).

Database state (the ledger and the media corpus) is modelled as explicit
lists threaded through the operations; timestamps are `Nat`; the content
hash is modelled by `md5Hex`, of which the development only uses that
byte-identical content yields an identical digest.
-/

namespace MediaWatch

/-! ### Path helpers (os.path.basename / os.path.splitext) -/

/-- Model of `os.path.basename`: the part of the path after the last slash. -/
def basename (p : String) : String :=
  ⟨(p.data.reverse.takeWhile (fun c => decide (c ≠ '/'))).reverse⟩

/-- Index of the last occurrence of a character in a list, if any. -/
def lastIdxOf (c : Char) : List Char → Option Nat
  | [] => none
  | x :: xs =>
    match lastIdxOf c xs with
    | some i => some (i + 1)
    | none => if x = c then some 0 else none

/-- Model of Python's `str.startswith`: the first characters equal the
candidate prefix. -/
def strStartsWith (s pre : String) : Bool :=
  decide (s.data.take pre.data.length = pre.data)

/-- Model of Python's `str.endswith`: the last characters equal the
candidate suffix. -/
def strEndsWith (s suf : String) : Bool :=
  decide (suf.data.length ≤ s.data.length
    ∧ s.data.drop (s.data.length - suf.data.length) = suf.data)

/-- Number of leading dots of a name; Python's `splitext` never starts an
extension inside this leading run. -/
def leadingDots (s : String) : Nat :=
  (s.data.takeWhile (fun c => c = '.')).length

/-- Model of `os.path.splitext` applied to a bare file name (no slash):
the extension starts at the last dot, except that a run of leading dots
never starts an extension (so `.bashrc` has no extension). -/
def splitExtName (s : String) : String × String :=
  match lastIdxOf '.' (s.data.drop (leadingDots s)) with
  | some j => (⟨s.data.take (leadingDots s + j)⟩, ⟨s.data.drop (leadingDots s + j)⟩)
  | none => (s, "")

/-! ### Data model: the durable import ledger (`MediaAutoImportRecord`)
and the media corpus. -/

/-- Embedding of `files.models.auto_import.MediaAutoImportRecord`: one row
of the durable import ledger, keyed uniquely on `source_path`.  The
`media` foreign key is nullable (`on_delete=SET_NULL`); `md5sum` and
`imported_at` are nullable and populated at import time. -/
structure LedgerEntry where
  source_path : String
  config_name : String
  media : Option Nat
  md5sum : Option String
  imported_at : Option Nat
  last_seen : Nat
deriving DecidableEq, Repr

/-- Embedding of `MediaAutoImportRecord.is_imported`:
`bool(self.media_id)`, i.e. the nullable media reference is set. -/
def is_imported (e : LedgerEntry) : Bool :=
  e.media.isSome

/-- One record of the media corpus (`files.models.Media`), restricted to the
fields the watch core reads or writes: the content checksum (unique across
the corpus and used for the global duplicate check), owner, title and
visibility state. -/
structure MediaRecord where
  id : Nat
  md5sum : String
  owner : String
  title : String
  state : Option String
deriving DecidableEq, Repr

/-- Model of the content hash (`hashlib.md5` streamed over the file).  The
development only relies on byte-identical content having an identical
digest, so the digest is modelled as the content itself. -/
def md5Hex (content : String) : String :=
  content

/-- A file of the watched directory, as the scan observes it: its resolved
absolute path and its byte content. -/
structure FSFile where
  path : String
  content : String
deriving DecidableEq, Repr

/-- Look a ledger row up by its unique `source_path` key
(`MediaAutoImportRecord.objects` filtered on `source_path`). -/
def findEntry : List LedgerEntry → String → Option LedgerEntry
  | [], _ => none
  | e :: l, p => if e.source_path = p then some e else findEntry l p

/-- The media reference stored at a source path, if the path has a ledger
row at all. -/
def mediaAt (ledger : List LedgerEntry) (p : String) : Option Nat :=
  match findEntry ledger p with
  | some e => e.media
  | none => none

/-- Persist one row (Django `record.save()`): replace the row with the same
unique `source_path` key. -/
def updateEntry (ledger : List LedgerEntry) (e : LedgerEntry) : List LedgerEntry :=
  ledger.map (fun x => if x.source_path = e.source_path then e else x)

/-- Embedding of `watch_media_directories.Command.process_config` lines
100-111: `MediaAutoImportRecord.objects.get_or_create` keyed on
`source_path` with the config name as creation default, followed by the
touch of `last_seen` (and of `config_name` when it differs) on a
pre-existing row.  Returns the updated ledger, the row observed, and the
`created` flag. -/
def getOrCreate (ledger : List LedgerEntry) (source_path config_name : String) (now : Nat) :
    List LedgerEntry × LedgerEntry × Bool :=
  match findEntry ledger source_path with
  | some record =>
    let record' :=
      if record.config_name = config_name then { record with last_seen := now }
      else { record with config_name := config_name, last_seen := now }
    (updateEntry ledger record', record', false)
  | none =>
    let record : LedgerEntry :=
      { source_path := source_path
        config_name := config_name
        media := none
        md5sum := none
        imported_at := none
        last_seen := now }
    (ledger ++ [record], record, true)

/-- Embedding of `watch_media_directories.Command.process_config` lines
137-141: after a successful import the command assigns `record.media`,
`record.imported_at`, `record.md5sum`, `record.config_name` and saves
(touching `last_seen`).  The write is unconditional: the code has no
already-imported guard at this point. -/
def markImported (record : LedgerEntry) (mediaId : Nat) (md5 : String) (now : Nat)
    (config_name : String) : LedgerEntry :=
  { record with
    media := some mediaId
    imported_at := some now
    md5sum := some md5
    config_name := config_name
    last_seen := now }

/-! ### The poll/scan strategy: `watch_media_directories.Command` -/

/-- The command-line options of `watch_media_directories`. -/
structure Options where
  once : Bool
  dry_run : Bool
  force : Bool
deriving DecidableEq, Repr

/-- Embedding of `Command._normalise_extensions`: lowercase each configured
extension and strip its leading dots. -/
def normalise_extensions (extensions : List String) : List String :=
  extensions.map (fun e => e.toLower.dropWhile (fun c => c == '.'))

/-- The lowercased, dot-stripped extension of a path, as
`file_path.suffix.lower().lstrip(".")` computes it on line 96 of
`process_config`. -/
def extKey (p : String) : String :=
  ((splitExtName (basename p)).2.toLower).dropWhile (fun c => c == '.')

/-- The extension-filter gate of `process_config` line 96: a file is
processed when no extensions are configured or its suffix is in the
normalised set. -/
def passesFilter (extensions : List String) (p : String) : Bool :=
  extensions.isEmpty || extensions.contains (extKey p)

/-- A watch configuration after `process_config` has resolved its fields
(config name defaulted to the path, extensions normalised, user resolved). -/
structure ResolvedConfig where
  config_name : String
  extensions : List String
  delete_after : Bool
  userName : String
  state : Option String
deriving DecidableEq, Repr

/-- The mutable state the poll strategy acts on: the durable ledger, the
media corpus, the next media id, the report lines written to stdout, and
the watched filesystem. -/
structure PollState where
  ledger : List LedgerEntry
  mediaList : List MediaRecord
  nextMediaId : Nat
  reportLines : List String
  fs : List FSFile
deriving DecidableEq, Repr

/-- Embedding of the per-file body of `Command.process_config` (lines
95-146): extension gate, ledger get-or-create with last-seen touch,
already-imported skip (bypassed by `--force`), dry-run report, media
creation via `_import_file` (which always creates a new `Media` row; the
poll strategy performs no checksum lookup), ledger terminal-field write,
and optional source deletion. -/
def processFileStep (rc : ResolvedConfig) (opts : Options) (now : Nat)
    (st : PollState) (f : FSFile) : PollState :=
  if !passesFilter rc.extensions f.path then st
  else
    let gor := getOrCreate st.ledger f.path rc.config_name now
    let ledger1 := gor.1
    let record := gor.2.1
    let st1 := { st with ledger := ledger1 }
    if is_imported record && !opts.force then st1
    else if opts.dry_run then
      { st1 with reportLines := st1.reportLines ++ ["[dry-run] Would import " ++ f.path] }
    else
      let media : MediaRecord :=
        { id := st1.nextMediaId
          md5sum := md5Hex f.content
          owner := rc.userName
          title := (splitExtName (basename f.path)).1
          state := rc.state }
      let record2 := markImported record media.id media.md5sum now rc.config_name
      let st2 :=
        { st1 with
          mediaList := st1.mediaList ++ [media]
          nextMediaId := st1.nextMediaId + 1
          ledger := updateEntry ledger1 record2 }
      if rc.delete_after then
        { st2 with fs := st2.fs.filter (fun g => decide (g.path ≠ f.path)) }
      else st2

/-- One scan pass of `Command.process_config` over the enumerated files of
a watched root (the `for file_path in self._iter_files(...)` loop). -/
def processFiles (rc : ResolvedConfig) (opts : Options) (now : Nat)
    (st : PollState) (files : List FSFile) : PollState :=
  files.foldl (processFileStep rc opts now) st

/-- A raw watch configuration dictionary together with the observations
`process_config` makes about the environment: whether the `path` key is
present, whether the path is an existing directory, whether the configured
user resolves, and the files its directory enumeration yields. -/
structure WatchConfigRaw where
  hasPath : Bool
  path : String
  pathIsDir : Bool
  name : Option String
  extensions : List String
  delete_after_import : Bool
  userIdentifier : Option String
  userResolvable : Bool
  state : Option String
  files : List FSFile
deriving DecidableEq, Repr

/-- Embedding of `Command.process_config` for one configuration:
the validation steps raise `CommandError` (modelled as `Except.error`);
a valid configuration is resolved and its directory scanned.  Channel,
category and tag resolution are orthogonal to the claims and are not
modelled. -/
def process_config (cfg : WatchConfigRaw) (opts : Options) (now : Nat)
    (st : PollState) : Except String PollState :=
  if !cfg.hasPath then .error "Watcher configuration is missing the 'path' key"
  else if !cfg.pathIsDir then .error ("Watch directory does not exist: " ++ cfg.path)
  else
    match cfg.userIdentifier with
    | none => .error "Watcher configuration requires a 'user' to assign media to"
    | some u =>
      if !cfg.userResolvable then .error ("Cannot find user with username/email '" ++ u ++ "'")
      else
        let rc : ResolvedConfig :=
          { config_name := cfg.name.getD cfg.path
            extensions := normalise_extensions cfg.extensions
            delete_after := cfg.delete_after_import
            userName := u
            state := cfg.state }
        .ok (processFiles rc opts now st cfg.files)

/-- Embedding of the per-scan loop of `Command.handle` (lines 56-64), in
`--once` mode: each configuration is processed in turn; a `CommandError`
is re-raised (`except CommandError: raise`), aborting the whole run, while
any other exception would be logged and the loop would continue (the pure
model's `process_config` only fails with `CommandError`). -/
def handleOnce (opts : Options) (now : Nat) :
    List WatchConfigRaw → PollState → Except String PollState
  | [], st => .ok st
  | cfg :: rest, st =>
    match process_config cfg opts now st with
    | .error e => .error e
    | .ok st1 => handleOnce opts now rest st1

/-! ### The event-driven strategy: `files/directory_monitor.py` -/

/-- The constructor arguments of `MediaFileHandler` (its configuration for
the lifetime of the watch session).  `extensions` is already lowercased,
with dots, as `__init__` stores it. -/
structure HandlerConfig where
  userName : String
  debounce_seconds : Nat
  extensions : List String
  default_state : String
  move_after_import : Bool
  processed_dir : Option String
deriving DecidableEq, Repr

/-- Embedding of `MediaFileHandler._should_process_file`: hidden files and
`.tmp`/`.part` temporaries are dropped; with no configured extensions all
files pass; otherwise the lowercased extension (dot included) must be in
the filter.  Python's `splitext` of a path has the same extension as the
`splitext` of its basename. -/
def should_process_file (extensions : List String) (file_path : String) : Bool :=
  let filename := basename file_path
  if strStartsWith filename "." then false
  else if strEndsWith filename ".tmp" then false
  else if strEndsWith filename ".part" then false
  else if extensions.isEmpty then true
  else extensions.contains ((splitExtName filename).2.toLower)

/-- State of the debouncer: the `pending_files` dict mapping a path to the
time of its most recent event, and the settle notifications issued so far
(each recorded as the path together with the worker-loop time that
released it, i.e. the call of `_import_media_file`). -/
structure DebounceState where
  pending_files : List (String × Nat)
  emitted : List (String × Nat)
deriving DecidableEq, Repr

/-- Python dict assignment `self.pending_files[file_path] = time.time()`:
refresh the timestamp if the key is present, insert it otherwise. -/
def setPending (pf : List (String × Nat)) (p : String) (t : Nat) : List (String × Nat) :=
  if pf.any (fun kv => decide (kv.1 = p)) then
    pf.map (fun kv => if kv.1 = p then (p, t) else kv)
  else pf ++ [(p, t)]

/-- Embedding of `MediaFileHandler.on_created` / `on_modified` (the two
have the same effect on the pending map): directory events are ignored,
filtered paths are dropped, and otherwise the path's pending timestamp is
recorded or refreshed. -/
def on_event (extensions : List String) (st : DebounceState) (p : String)
    (isDirectory : Bool) (t : Nat) : DebounceState :=
  if isDirectory then st
  else if !should_process_file extensions p then st
  else { st with pending_files := setPending st.pending_files p t }

/-- One iteration of the `_process_pending_files` worker loop at time
`now`: every pending path whose age reaches `debounce_seconds` is removed
from the pending map and processed (a settle notification). -/
def process_tick (debounce_seconds : Nat) (st : DebounceState) (now : Nat) : DebounceState :=
  let due := st.pending_files.filter (fun kv => decide (debounce_seconds ≤ now - kv.2))
  { pending_files := st.pending_files.filter (fun kv => !decide (debounce_seconds ≤ now - kv.2))
    emitted := st.emitted ++ due.map (fun kv => (kv.1, now)) }

/-- An observable action of the handler: a filesystem event for a path
(with the watchdog `is_directory` flag) or a wakeup of the debounce worker
loop, each stamped with its time. -/
inductive WatchAct where
  | event : String → Bool → Nat → WatchAct
  | tick : Nat → WatchAct
deriving DecidableEq, Repr

/-- Dispatch one action to the handler. -/
def watch_step (debounce_seconds : Nat) (extensions : List String)
    (st : DebounceState) (a : WatchAct) : DebounceState :=
  match a with
  | .event p d t => on_event extensions st p d t
  | .tick t => process_tick debounce_seconds st t

/-- Run the handler over a chronological list of actions. -/
def runTrace (debounce_seconds : Nat) (extensions : List String)
    (st : DebounceState) (acts : List WatchAct) : DebounceState :=
  acts.foldl (watch_step debounce_seconds extensions) st

/-! ### The event-driven import pipeline: `_import_media_file` -/

/-- A candidate file, as `_import_media_file` re-observes it after the
debounce period: its path, whether it still exists and is a regular file,
its size in bytes, and its content. -/
structure CandidateFile where
  path : String
  stillExists : Bool
  isFile : Bool
  size : Nat
  content : String
deriving DecidableEq, Repr

/-- The terminal outcome of `_import_media_file` for one candidate file.
Every outcome is an ordinary return of the function (the body catches all
exceptions), never a raised error. -/
inductive ImportOutcome where
  | fileGone : ImportOutcome
  | notAFile : ImportOutcome
  | emptyFile : ImportOutcome
  | tooLarge : ImportOutcome
  | duplicateSkipped : Nat → ImportOutcome
  | imported : Nat → ImportOutcome
deriving DecidableEq, Repr

/-- State the event-driven pipeline acts on: the media corpus, the next
media id, and the relocation requests handed to `_move_processed_file`
(path and duplicate flag). -/
structure EventState where
  mediaList : List MediaRecord
  nextMediaId : Nat
  moveRequests : List (String × Bool)
deriving DecidableEq, Repr

/-- Look a media record up by checksum in the global corpus
(`Media.objects.filter(md5sum=md5sum).first()`). -/
def findByMd5 : List MediaRecord → String → Option MediaRecord
  | [], _ => none
  | m :: l, s => if m.md5sum = s then some m else findByMd5 l s

/-- Embedding of `MediaFileHandler._import_media_file`: validation
(existence, regular file, non-zero size, size ceiling `UPLOAD_MAX_SIZE`),
checksum computation, the global duplicate lookup
`Media.objects.filter(md5sum=...)` before any media creation, media
creation, and the optional relocation requests.  The checksum-read
I/O-failure branch (`_calculate_md5` returning `None`) is not modelled:
the claims under study concern readable files. -/
def import_media_file (max_size : Nat) (h : HandlerConfig) (st : EventState)
    (f : CandidateFile) : EventState × ImportOutcome :=
  if !f.stillExists then (st, .fileGone)
  else if !f.isFile then (st, .notAFile)
  else if f.size == 0 then (st, .emptyFile)
  else if max_size < f.size then (st, .tooLarge)
  else
    let md5sum := md5Hex f.content
    match findByMd5 st.mediaList md5sum with
    | some existing =>
      let st1 :=
        if h.move_after_import && h.processed_dir.isSome then
          { st with moveRequests := st.moveRequests ++ [(f.path, true)] }
        else st
      (st1, .duplicateSkipped existing.id)
    | none =>
      let filename := basename f.path
      let media : MediaRecord :=
        { id := st.nextMediaId
          md5sum := md5sum
          owner := h.userName
          title := (splitExtName filename).1
          state := if h.default_state == "public" then none else some h.default_state }
      let st1 :=
        { st with
          mediaList := st.mediaList ++ [media]
          nextMediaId := st.nextMediaId + 1 }
      let st2 :=
        if h.move_after_import && h.processed_dir.isSome then
          { st1 with moveRequests := st1.moveRequests ++ [(f.path, false)] }
        else st1
      (st2, .imported media.id)

/-- Embedding of `MediaFileHandler._move_processed_file`: pick the
`duplicates` or `imported` subdirectory of the processed root, and append
a timestamp suffix to the file name when the destination already exists.
`occupied` lists the (directory, name) pairs already present on disk; the
result is the (directory, name) the file is moved to, or `none` when no
processed directory is configured. -/
def move_processed_file (processed_dir : Option String)
    (occupied : List (String × String)) (file_path : String)
    (timestamp : String) (duplicate : Bool) : Option (String × String) :=
  match processed_dir with
  | none => none
  | some pd =>
    let target_dir := if duplicate then pd ++ "/duplicates" else pd ++ "/imported"
    let filename := basename file_path
    if occupied.contains (target_dir, filename) then
      let ne := splitExtName filename
      some (target_dir, ne.1 ++ "_" ++ timestamp ++ ne.2)
    else
      some (target_dir, filename)

/-! ### `DirectoryMonitor.start` -/

/-- A configured watch directory together with the filesystem observations
`DirectoryMonitor.start` makes about it. -/
structure DirInfo where
  path : String
  pathExists : Bool
  isDir : Bool
  readable : Bool
deriving DecidableEq, Repr

/-- A directory passes the per-directory validation loop of
`DirectoryMonitor.start`. -/
def dirValid (d : DirInfo) : Bool :=
  d.pathExists && d.isDir && d.readable

/-- The settings `DirectoryMonitor.start` reads, with the observations it
makes about them (user resolution, processed-directory creation). -/
structure MonitorConfig where
  watchDirs : List DirInfo
  watchUserSet : Bool
  watchUserFound : Bool
  move_after_import : Bool
  processedDirSet : Bool
  processedDirCreatable : Bool
deriving DecidableEq, Repr

/-- Embedding of `DirectoryMonitor.start`: configuration and user checks,
the per-directory validation loop that skips each invalid directory with a
warning, the hard failure when no directory survives, the processed-dir
checks, and the start of one observer per valid directory.  `none` models
`return False`; `some paths` models a successful start with observers on
exactly `paths`. -/
def monitorStart (cfg : MonitorConfig) : Option (List String) :=
  if cfg.watchDirs.isEmpty then none
  else if !cfg.watchUserSet then none
  else if !cfg.watchUserFound then none
  else
    let valid := cfg.watchDirs.filter dirValid
    if valid.isEmpty then none
    else if cfg.move_after_import && !cfg.processedDirSet then none
    else if cfg.move_after_import && !cfg.processedDirCreatable then none
    else some (valid.map (fun d => d.path))

/-! ### Deletion of a media object (`on_delete=SET_NULL`) -/

/-- Deleting a media object from the corpus: the row disappears and every
ledger entry whose `media` foreign key referenced it is severed to null,
per `on_delete=models.SET_NULL` of `MediaAutoImportRecord.media`. -/
def severMedia (mediaId : Nat) (e : LedgerEntry) : LedgerEntry :=
  if e.media = some mediaId then { e with media := none } else e

/-- Delete one media object from the poll state. -/
def deleteMedia (st : PollState) (mediaId : Nat) : PollState :=
  { st with
    mediaList := st.mediaList.filter (fun m => decide (m.id ≠ mediaId))
    ledger := st.ledger.map (severMedia mediaId) }

/-! ### Burst traces for the debounce analysis -/

/-- The worker-loop wakeups lying between consecutive events of a burst,
then the suffix of wakeups after its last event: a burst for path `p` is
the first event at `e1`, then for each `(ts, e2)` of `mid` the wakeups at
times `ts` followed by the re-arming event at `e2`, and finally the
wakeups of `suffix`. -/
def midTrace (p : String) (mid : List (List Nat × Nat)) : List WatchAct :=
  mid.flatMap (fun seg => seg.1.map WatchAct.tick ++ [WatchAct.event p false seg.2])

/-- A full burst trace: first event, interleaved wakeups and re-arming
events, then the trailing wakeups. -/
def burstTrace (p : String) (e1 : Nat) (mid : List (List Nat × Nat)) (suffix : List Nat) :
    List WatchAct :=
  WatchAct.event p false e1 :: (midTrace p mid ++ suffix.map WatchAct.tick)

/-- The time of the last event of a burst. -/
def lastEvent (e1 : Nat) : List (List Nat × Nat) → Nat
  | [] => e1
  | seg :: rest => lastEvent seg.2 rest

/-- Chronological well-formedness of the interleaved part of a burst with
debounce window `w`, relative to the previous event time `e`: every wakeup
before the next event happens strictly less than `w` after the previous
event (which follows from chronological order when consecutive events are
less than `w` apart), and each next event is at or after the previous one
and strictly less than `w` after it. -/
def midOK (w : Nat) : Nat → List (List Nat × Nat) → Bool
  | _, [] => true
  | e, seg :: rest =>
    seg.1.all (fun t => decide (t < e + w)) && decide (e ≤ seg.2) &&
      decide (seg.2 < e + w) && midOK w seg.2 rest

/-! ### Concrete inputs reused by the witnesses and counterexamples -/

/-- A resolved configuration with no extension filter, as in the included
source test (`test_imports_new_media_and_records_source`). -/
def rcEx : ResolvedConfig :=
  { config_name := "watch", extensions := [], delete_after := false,
    userName := "alice", state := none }

/-- Options of a plain `--once` run. -/
def optsOnce : Options :=
  { once := true, dry_run := false, force := false }

/-- Options of a `--once --dry-run` run. -/
def optsDry : Options :=
  { once := true, dry_run := true, force := false }

/-- An empty initial state whose watched directory holds three eligible
files; `c.jpg` has the same bytes as `a.jpg`. -/
def fsEx : List FSFile :=
  [⟨"/w/a.jpg", "X"⟩, ⟨"/w/b.jpg", "Y"⟩, ⟨"/w/c.jpg", "X"⟩]

/-- The initial poll state over that directory: empty ledger, empty corpus. -/
def st0Ex : PollState :=
  { ledger := [], mediaList := [], nextMediaId := 0, reportLines := [], fs := fsEx }

/-- An event-strategy handler with no extension filter and no relocation. -/
def hEx : HandlerConfig :=
  { userName := "alice", debounce_seconds := 5, extensions := [],
    default_state := "public", move_after_import := false, processed_dir := none }

/-- An empty event-strategy state. -/
def est0Ex : EventState :=
  { mediaList := [], nextMediaId := 0, moveRequests := [] }

/-- A well-formed raw watch configuration over a directory holding one
file. -/
def goodCfgEx : WatchConfigRaw :=
  { hasPath := true, path := "/w", pathIsDir := true, name := some "watch",
    extensions := [], delete_after_import := false,
    userIdentifier := some "alice", userResolvable := true, state := none,
    files := [⟨"/w/a.jpg", "X"⟩] }

/-- A raw watch configuration whose directory does not exist. -/
def badCfgEx : WatchConfigRaw :=
  { hasPath := true, path := "/missing", pathIsDir := false, name := none,
    extensions := [], delete_after_import := false,
    userIdentifier := some "alice", userResolvable := true, state := none,
    files := [] }

/-! ## Theorems

First, generic lemmas about the path helpers and the ledger operations;
then one theorem per claim, with witnesses and counterexamples. -/

/-- Splitting a name at the extension loses nothing: the two halves
concatenate back to the original name. -/
theorem splitExtName_append (s : String) :
    (splitExtName s).1 ++ (splitExtName s).2 = s := by
  cases h : lastIdxOf '.' (s.data.drop (leadingDots s)) with
  | none => simp [splitExtName, h]
  | some j =>
    simp only [splitExtName, h]
    exact congrArg String.mk (List.take_append_drop _ s.data)

/-- Ledger lookup distributes over append. -/
theorem findEntry_append (l1 l2 : List LedgerEntry) (p : String) :
    findEntry (l1 ++ l2) p = (findEntry l1 p).or (findEntry l2 p) := by
  induction l1 with
  | nil => rfl
  | cons x xs ih =>
    by_cases hx : x.source_path = p
    · simp [findEntry, hx]
    · simp [findEntry, hx, ih]

/-- The entry a successful ledger lookup returns carries the looked-up key. -/
theorem findEntry_source_path {l : List LedgerEntry} {p : String} {e : LedgerEntry}
    (h : findEntry l p = some e) : e.source_path = p := by
  induction l with
  | nil => simp [findEntry] at h
  | cons x xs ih =>
    by_cases hx : x.source_path = p
    · rw [findEntry, if_pos hx] at h
      cases h
      exact hx
    · rw [findEntry, if_neg hx] at h
      exact ih h

/-- Saving a row keeps every other key's lookup unchanged. -/
theorem findEntry_updateEntry_other (l : List LedgerEntry) (e : LedgerEntry) (q : String)
    (h : e.source_path ≠ q) :
    findEntry (updateEntry l e) q = findEntry l q := by
  induction l with
  | nil => rfl
  | cons x xs ih =>
    rw [updateEntry, List.map_cons]
    by_cases hx : x.source_path = e.source_path
    · rw [if_pos hx, findEntry, if_neg h, findEntry, if_neg]
      · exact ih
      · rw [hx]; exact h
    · rw [if_neg hx]
      by_cases hq : x.source_path = q
      · rw [findEntry, if_pos hq, findEntry, if_pos hq]
      · rw [findEntry, if_neg hq, findEntry, if_neg hq]
        exact ih

/-- Saving a row makes its own key's lookup return it, when the key was
present before. -/
theorem findEntry_updateEntry_self (l : List LedgerEntry) (e : LedgerEntry) :
    findEntry (updateEntry l e) e.source_path
      = (findEntry l e.source_path).map (fun _ => e) := by
  induction l with
  | nil => rfl
  | cons x xs ih =>
    rw [updateEntry, List.map_cons]
    by_cases hx : x.source_path = e.source_path
    · rw [if_pos hx, findEntry, if_pos rfl, findEntry, if_pos hx]
      rfl
    · rw [if_neg hx, findEntry, if_neg hx, findEntry, if_neg hx]
      exact ih

/-- Severing a media reference does not change a row's key. -/
theorem severMedia_source_path (m : Nat) (e : LedgerEntry) :
    (severMedia m e).source_path = e.source_path := by
  unfold severMedia; split <;> rfl

/-- Ledger lookup commutes with severing a deleted media's references. -/
theorem findEntry_map_sever (l : List LedgerEntry) (m : Nat) (p : String) :
    findEntry (l.map (severMedia m)) p = (findEntry l p).map (severMedia m) := by
  induction l with
  | nil => rfl
  | cons x xs ih =>
    rw [List.map_cons, findEntry, findEntry, severMedia_source_path]
    by_cases hx : x.source_path = p
    · rw [if_pos hx, if_pos hx]
      rfl
    · rw [if_neg hx, if_neg hx]
      exact ih

/-- The row `getOrCreate` observes carries the observed source path. -/
theorem getOrCreate_source_path (l : List LedgerEntry) (sp cn : String) (now : Nat) :
    (getOrCreate l sp cn now).2.1.source_path = sp := by
  unfold getOrCreate
  cases h : findEntry l sp with
  | none => rfl
  | some e =>
    have he : e.source_path = sp := findEntry_source_path h
    dsimp only
    split <;> simpa using he

/-- The row `getOrCreate` observes carries the media reference already
stored at the path (none when the row is fresh): the upsert never touches
the media field. -/
theorem getOrCreate_media (l : List LedgerEntry) (sp cn : String) (now : Nat) :
    (getOrCreate l sp cn now).2.1.media = mediaAt l sp := by
  unfold getOrCreate mediaAt
  cases h : findEntry l sp with
  | none => simp
  | some e =>
    dsimp only
    split <;> simp

/-- After `getOrCreate`, the observed row is what the updated ledger holds
at the observed path. -/
theorem getOrCreate_findEntry (l : List LedgerEntry) (sp cn : String) (now : Nat) :
    findEntry (getOrCreate l sp cn now).1 sp = some (getOrCreate l sp cn now).2.1 := by
  cases h : findEntry l sp with
  | none =>
    simp only [getOrCreate, h]
    rw [findEntry_append, h, Option.none_or, findEntry, if_pos rfl]
  | some e =>
    have he : e.source_path = sp := findEntry_source_path h
    simp only [getOrCreate, h]
    set r := (if e.config_name = cn then { e with last_seen := now }
        else { e with config_name := cn, last_seen := now }) with hr
    have hsp : r.source_path = sp := by rw [hr]; split <;> simpa using he
    rw [← hsp, findEntry_updateEntry_self, hsp, h]
    rfl

/-- `getOrCreate` changes no media reference anywhere in the ledger. -/
theorem getOrCreate_mediaAt (l : List LedgerEntry) (sp cn : String) (now : Nat)
    (q : String) :
    mediaAt (getOrCreate l sp cn now).1 q = mediaAt l q := by
  cases h : findEntry l sp with
  | none =>
    simp only [getOrCreate, h]
    unfold mediaAt
    rw [findEntry_append]
    cases hq : findEntry l q with
    | some e => simp
    | none =>
      rw [Option.none_or, findEntry]
      by_cases hpq : sp = q
      · rw [if_pos hpq]
      · rw [if_neg hpq, findEntry]
  | some e =>
    have he : e.source_path = sp := findEntry_source_path h
    simp only [getOrCreate, h]
    set r := (if e.config_name = cn then { e with last_seen := now }
        else { e with config_name := cn, last_seen := now }) with hr
    have hsp : r.source_path = sp := by rw [hr]; split <;> simpa using he
    have hmedia : r.media = e.media := by rw [hr]; split <;> rfl
    unfold mediaAt
    by_cases hpq : sp = q
    · subst hpq
      rw [← hsp, findEntry_updateEntry_self, hsp, h]
      simp [hmedia]
    · rw [findEntry_updateEntry_other]
      rw [hsp]
      exact hpq

/-- Marking a row imported does not change its key. -/
theorem markImported_source_path (r : LedgerEntry) (i : Nat) (d : String) (n : Nat)
    (c : String) : (markImported r i d n c).source_path = r.source_path :=
  rfl

/-- Media reference at a different key, after saving a row. -/
theorem mediaAt_updateEntry_other (l : List LedgerEntry) (e : LedgerEntry) (q : String)
    (h : e.source_path ≠ q) : mediaAt (updateEntry l e) q = mediaAt l q := by
  unfold mediaAt
  rw [findEntry_updateEntry_other l e q h]

/-- Media reference at a saved row's own key, when the key was present. -/
theorem mediaAt_updateEntry_self (l : List LedgerEntry) (e : LedgerEntry)
    (h : (findEntry l e.source_path).isSome = true) :
    mediaAt (updateEntry l e) e.source_path = e.media := by
  unfold mediaAt
  rw [findEntry_updateEntry_self]
  cases hfe : findEntry l e.source_path with
  | none => rw [hfe] at h; simp at h
  | some e0 => simp

/-- Variant of `mediaAt_updateEntry_self` keyed by an equal path. -/
theorem mediaAt_updateEntry_self' (l : List LedgerEntry) (e : LedgerEntry) (p : String)
    (hp : e.source_path = p) (h : (findEntry l p).isSome = true) :
    mediaAt (updateEntry l e) p = e.media := by
  subst hp
  exact mediaAt_updateEntry_self l e h

/-- Media reference at the path `getOrCreate` observed. -/
theorem mediaAt_getOrCreate_self (l : List LedgerEntry) (sp cn : String) (now : Nat) :
    mediaAt (getOrCreate l sp cn now).1 sp = (getOrCreate l sp cn now).2.1.media := by
  unfold mediaAt
  rw [getOrCreate_findEntry]

/-- A file failing the extension filter leaves the state untouched. -/
theorem processFileStep_filtered (rc : ResolvedConfig) (opts : Options) (now : Nat)
    (st : PollState) (f : FSFile) (hfil : passesFilter rc.extensions f.path = false) :
    processFileStep rc opts now st f = st := by
  simp [processFileStep, hfil]

/-- Without `--force`, one scan step never disturbs an existing media
reference of any ledger row. -/
theorem processFileStep_preserves_media (rc : ResolvedConfig) (opts : Options)
    (now : Nat) (st : PollState) (f : FSFile) (q : String) (m : Nat)
    (hforce : opts.force = false)
    (hq : mediaAt st.ledger q = some m) :
    mediaAt (processFileStep rc opts now st f).ledger q = some m := by
  by_cases hfil : passesFilter rc.extensions f.path
  · rw [processFileStep, if_neg (by simp [hfil])]
    simp only [hforce, Bool.not_false, Bool.and_true]
    by_cases himp : is_imported (getOrCreate st.ledger f.path rc.config_name now).2.1
    · rw [if_pos himp]
      rw [getOrCreate_mediaAt]
      exact hq
    · rw [if_neg himp]
      by_cases hdry : opts.dry_run
      · rw [if_pos hdry]
        rw [getOrCreate_mediaAt]
        exact hq
      · rw [if_neg hdry]
        have hqp : q ≠ f.path := by
          intro heq
          apply himp
          rw [is_imported, getOrCreate_media, ← heq, hq]
          rfl
        have hother : (markImported (getOrCreate st.ledger f.path rc.config_name now).2.1
            st.nextMediaId (md5Hex f.content) now rc.config_name).source_path ≠ q := by
          rw [markImported_source_path, getOrCreate_source_path]
          exact fun hc => hqp hc.symm
        split <;>
        · dsimp only
          rw [mediaAt_updateEntry_other _ _ _ hother, getOrCreate_mediaAt]
          exact hq
  · rw [processFileStep_filtered rc opts now st f (by simpa using hfil)]
    exact hq

/-- After a normal (not dry-run, not forced) scan step on an eligible
file, the file's ledger row holds a media reference. -/
theorem processFileStep_imports (rc : ResolvedConfig) (opts : Options) (now : Nat)
    (st : PollState) (f : FSFile)
    (hfil : passesFilter rc.extensions f.path = true)
    (hforce : opts.force = false) (hdry : opts.dry_run = false) :
    (mediaAt (processFileStep rc opts now st f).ledger f.path).isSome = true := by
  rw [processFileStep, if_neg (by simp [hfil])]
  simp only [hforce, Bool.not_false, Bool.and_true, hdry]
  by_cases himp : is_imported (getOrCreate st.ledger f.path rc.config_name now).2.1
  · rw [if_pos himp]
    rw [mediaAt_getOrCreate_self]
    exact himp
  · rw [if_neg himp, if_neg (by simp)]
    have hpath : (markImported (getOrCreate st.ledger f.path rc.config_name now).2.1
        st.nextMediaId (md5Hex f.content) now rc.config_name).source_path = f.path := by
      rw [markImported_source_path, getOrCreate_source_path]
    split <;>
    · dsimp only
      rw [mediaAt_updateEntry_self' _ _ _ hpath]
      · rfl
      · rw [getOrCreate_findEntry]
        rfl

/-- Without `--force`, a scan step on a file whose ledger row is already
imported only touches bookkeeping fields: the media corpus and every media
reference are left exactly as they were. -/
theorem processFileStep_skips_imported (rc : ResolvedConfig) (opts : Options)
    (now : Nat) (st : PollState) (f : FSFile)
    (hforce : opts.force = false)
    (himp : passesFilter rc.extensions f.path = true →
      (mediaAt st.ledger f.path).isSome = true) :
    (processFileStep rc opts now st f).mediaList = st.mediaList
    ∧ ∀ q, mediaAt (processFileStep rc opts now st f).ledger q = mediaAt st.ledger q := by
  by_cases hfil : passesFilter rc.extensions f.path
  · rw [processFileStep, if_neg (by simp [hfil])]
    have hrec : is_imported (getOrCreate st.ledger f.path rc.config_name now).2.1 = true := by
      rw [is_imported, getOrCreate_media]
      exact himp hfil
    simp only [hforce, Bool.not_false, Bool.and_true, hrec, if_true]
    exact ⟨trivial, fun q => getOrCreate_mediaAt st.ledger f.path rc.config_name now q⟩
  · rw [processFileStep_filtered rc opts now st f (by simpa using hfil)]
    exact ⟨rfl, fun q => rfl⟩

/-- Folded version of `processFileStep_preserves_media`: a whole scan pass
without `--force` never disturbs an existing media reference. -/
theorem processFiles_preserves_media (rc : ResolvedConfig) (opts : Options)
    (now : Nat) (files : List FSFile) (st : PollState) (q : String) (m : Nat)
    (hforce : opts.force = false)
    (hq : mediaAt st.ledger q = some m) :
    mediaAt (processFiles rc opts now st files).ledger q = some m := by
  induction files generalizing st with
  | nil => exact hq
  | cons g gs ih =>
    exact ih _ (processFileStep_preserves_media rc opts now st g q m hforce hq)

/-- After a normal scan pass, every file of the pass that satisfies the
extension filter has an imported ledger row. -/
theorem processFiles_imports (rc : ResolvedConfig) (opts : Options) (now : Nat)
    (files : List FSFile) (st : PollState) (f : FSFile)
    (hf : f ∈ files)
    (hfil : passesFilter rc.extensions f.path = true)
    (hforce : opts.force = false) (hdry : opts.dry_run = false) :
    (mediaAt (processFiles rc opts now st files).ledger f.path).isSome = true := by
  induction files generalizing st with
  | nil => cases hf
  | cons g gs ih =>
    rcases List.mem_cons.mp hf with hfg | hftail
    · subst hfg
      by_cases htail : (mediaAt (processFileStep rc opts now st f).ledger f.path).isSome
      · cases hsome : mediaAt (processFileStep rc opts now st f).ledger f.path with
        | none => rw [hsome] at htail; simp at htail
        | some m =>
          have := processFiles_preserves_media rc opts now gs
            (processFileStep rc opts now st f) f.path m hforce hsome
          show (mediaAt (processFiles rc opts now (processFileStep rc opts now st f) gs).ledger
            f.path).isSome = true
          rw [this]
          rfl
      · exact absurd (processFileStep_imports rc opts now st f hfil hforce hdry) htail
    · exact ih _ hftail

/-- A scan pass without `--force` over files whose eligible members are
all already imported is a no-op on the media corpus and on every media
reference. -/
theorem processFiles_noop (rc : ResolvedConfig) (opts : Options) (now : Nat)
    (files : List FSFile) (st : PollState)
    (hforce : opts.force = false)
    (hall : ∀ f ∈ files, passesFilter rc.extensions f.path = true →
      (mediaAt st.ledger f.path).isSome = true) :
    (processFiles rc opts now st files).mediaList = st.mediaList
    ∧ ∀ q, mediaAt (processFiles rc opts now st files).ledger q = mediaAt st.ledger q := by
  induction files generalizing st with
  | nil => exact ⟨rfl, fun q => rfl⟩
  | cons g gs ih =>
    obtain ⟨hml, hat⟩ := processFileStep_skips_imported rc opts now st g hforce
      (hall g (List.mem_cons_self g gs))
    obtain ⟨hml2, hat2⟩ := ih (processFileStep rc opts now st g)
      (fun f hf hfil => by rw [hat f.path]; exact hall f (List.mem_cons_of_mem g hf) hfil)
    refine ⟨?_, fun q => ?_⟩
    · show (processFiles rc opts now (processFileStep rc opts now st g) gs).mediaList
        = st.mediaList
      rw [hml2, hml]
    · show mediaAt (processFiles rc opts now (processFileStep rc opts now st g) gs).ledger q
        = mediaAt st.ledger q
      rw [hat2 q, hat q]

/-- C1: Running the poll-scan import pass twice over the same root without
the force flag is idempotent: the second pass creates no media record at
all (so in particular no second record for any path imported in the first
pass), and for every file path already imported in the first pass the
ledger row's media reference is unchanged — and it is set after the first
pass. -/
theorem c1_second_pass_idempotent (rc : ResolvedConfig) (opts : Options)
    (now1 now2 : Nat) (st0 : PollState) (files : List FSFile) (f : FSFile)
    (hforce : opts.force = false) (hdry : opts.dry_run = false)
    (hf : f ∈ files) (hfil : passesFilter rc.extensions f.path = true) :
    (processFiles rc opts now2 (processFiles rc opts now1 st0 files) files).mediaList
      = (processFiles rc opts now1 st0 files).mediaList
    ∧ mediaAt (processFiles rc opts now2
        (processFiles rc opts now1 st0 files) files).ledger f.path
      = mediaAt (processFiles rc opts now1 st0 files).ledger f.path
    ∧ (mediaAt (processFiles rc opts now1 st0 files).ledger f.path).isSome = true := by
  have hall : ∀ g ∈ files, passesFilter rc.extensions g.path = true →
      (mediaAt (processFiles rc opts now1 st0 files).ledger g.path).isSome = true :=
    fun g hg hgfil => processFiles_imports rc opts now1 files st0 g hg hgfil hforce hdry
  obtain ⟨hml, hat⟩ := processFiles_noop rc opts now2 files
    (processFiles rc opts now1 st0 files) hforce hall
  exact ⟨hml, hat f.path, hall f hf hfil⟩

/-- Witness for C1 at the concrete one-root directory of the included
source test: first pass at time 1, second pass at time 2. -/
theorem c1_second_pass_idempotent_witness :
    optsOnce.force = false ∧ optsOnce.dry_run = false
    ∧ (⟨"/w/a.jpg", "X"⟩ : FSFile) ∈ fsEx
    ∧ passesFilter rcEx.extensions "/w/a.jpg" = true
    ∧ ((processFiles rcEx optsOnce 2 (processFiles rcEx optsOnce 1 st0Ex fsEx) fsEx).mediaList
        = (processFiles rcEx optsOnce 1 st0Ex fsEx).mediaList
      ∧ mediaAt (processFiles rcEx optsOnce 2
          (processFiles rcEx optsOnce 1 st0Ex fsEx) fsEx).ledger "/w/a.jpg"
        = mediaAt (processFiles rcEx optsOnce 1 st0Ex fsEx).ledger "/w/a.jpg"
      ∧ (mediaAt (processFiles rcEx optsOnce 1 st0Ex fsEx).ledger "/w/a.jpg").isSome = true) :=
  ⟨rfl, rfl, by decide, by decide,
    c1_second_pass_idempotent rcEx optsOnce 1 2 st0Ex fsEx ⟨"/w/a.jpg", "X"⟩ rfl rfl
      (by decide) (by decide)⟩

/-- C3 (code bug): a `--dry-run` pass over a directory of three eligible
files creates no media record, leaves the filesystem unchanged and emits
three report lines — but it creates three ledger rows, because
`get_or_create` on line 100 of `process_config` runs before the dry-run
check on line 116.  This contradicts the claim (and the option's own help
text, "Report the files that would be imported without saving anything"). -/
theorem c3_dry_run_mutates_ledger :
    (processFiles rcEx optsDry 1 st0Ex fsEx).mediaList = []
    ∧ (processFiles rcEx optsDry 1 st0Ex fsEx).fs = fsEx
    ∧ (processFiles rcEx optsDry 1 st0Ex fsEx).reportLines.length = 3
    ∧ (processFiles rcEx optsDry 1 st0Ex fsEx).ledger.length = 3 := by
  decide

/-- C7: the ledger get-or-create operation is an upsert keyed on source
path: the observed row carries the caller's config name (overwriting a
differing stored one), its last-seen timestamp is set to the observation
time in every case, a row is created exactly when the path had none, the
updated ledger holds the observed row at the path, and a pre-existing
row's terminal fields and the ledger's row count are untouched. -/
theorem c7_get_or_create_upsert (ledger : List LedgerEntry) (sp cn : String)
    (now : Nat) :
    (getOrCreate ledger sp cn now).2.1.config_name = cn
    ∧ (getOrCreate ledger sp cn now).2.1.last_seen = now
    ∧ (getOrCreate ledger sp cn now).2.1.source_path = sp
    ∧ (getOrCreate ledger sp cn now).2.2 = (findEntry ledger sp).isNone
    ∧ findEntry (getOrCreate ledger sp cn now).1 sp
        = some (getOrCreate ledger sp cn now).2.1
    ∧ (match findEntry ledger sp with
       | none =>
         (getOrCreate ledger sp cn now).1 = ledger ++ [(getOrCreate ledger sp cn now).2.1]
         ∧ (getOrCreate ledger sp cn now).2.1.media = none
         ∧ (getOrCreate ledger sp cn now).2.1.md5sum = none
         ∧ (getOrCreate ledger sp cn now).2.1.imported_at = none
       | some e0 =>
         (getOrCreate ledger sp cn now).2.1.media = e0.media
         ∧ (getOrCreate ledger sp cn now).2.1.md5sum = e0.md5sum
         ∧ (getOrCreate ledger sp cn now).2.1.imported_at = e0.imported_at
         ∧ (getOrCreate ledger sp cn now).1.length = ledger.length) := by
  refine ⟨?_, ?_, getOrCreate_source_path ledger sp cn now,
    ?_, getOrCreate_findEntry ledger sp cn now, ?_⟩
  · unfold getOrCreate
    cases h : findEntry ledger sp with
    | none => rfl
    | some e =>
      dsimp only
      by_cases hcn : e.config_name = cn
      · rw [if_pos hcn]
        exact hcn
      · rw [if_neg hcn]
  · unfold getOrCreate
    cases h : findEntry ledger sp with
    | none => rfl
    | some e =>
      dsimp only
      split <;> rfl
  · unfold getOrCreate
    cases h : findEntry ledger sp with
    | none => rfl
    | some e => rfl
  · cases h : findEntry ledger sp with
    | none =>
      simp [getOrCreate, h]
    | some e =>
      simp only [getOrCreate, h]
      refine ⟨?_, ?_, ?_, ?_⟩
      · split <;> rfl
      · split <;> rfl
      · split <;> rfl
      · exact List.length_map ledger _

/-- C6 (counterexample): the mark-imported write of `process_config` lines
137-141, applied to a ledger row whose terminal fields are already set
(the row is imported), does not fail — the operation has no error case —
and overwrites the media reference, checksum and imported-at timestamp
with the new values. -/
theorem c6_mark_imported_overwrites :
    is_imported ⟨"/w/a.jpg", "watch", some 1, some "X", some 10, 10⟩ = true
    ∧ (markImported ⟨"/w/a.jpg", "watch", some 1, some "X", some 10, 10⟩
        2 "Y" 20 "watch").media = some 2
    ∧ (markImported ⟨"/w/a.jpg", "watch", some 1, some "X", some 10, 10⟩
        2 "Y" 20 "watch").md5sum = some "Y"
    ∧ (markImported ⟨"/w/a.jpg", "watch", some 1, some "X", some 10, 10⟩
        2 "Y" 20 "watch").imported_at = some 20 := by
  decide

/-- C6 (amended): calling the mark-imported operation a second time for a
source path whose terminal fields are already set raises no
`AlreadyImported` error — the code has no such guard — and unconditionally
overwrites the media reference, checksum and imported-at timestamp with
the new values. -/
theorem c6_amended_second_mark_overwrites (e : LedgerEntry) (m0 : Nat)
    (_h : e.media = some m0) (m1 : Nat) (d : String) (t : Nat) (c : String) :
    (markImported e m1 d t c).media = some m1
    ∧ (markImported e m1 d t c).md5sum = some d
    ∧ (markImported e m1 d t c).imported_at = some t :=
  ⟨rfl, rfl, rfl⟩

/-- Witness for the amended C6 at a concrete already-imported row. -/
theorem c6_amended_second_mark_overwrites_witness :
    (⟨"/w/a.jpg", "watch", some 1, some "X", some 10, 10⟩ : LedgerEntry).media = some 1
    ∧ ((markImported ⟨"/w/a.jpg", "watch", some 1, some "X", some 10, 10⟩
          2 "Y" 20 "watch").media = some 2
      ∧ (markImported ⟨"/w/a.jpg", "watch", some 1, some "X", some 10, 10⟩
          2 "Y" 20 "watch").md5sum = some "Y"
      ∧ (markImported ⟨"/w/a.jpg", "watch", some 1, some "X", some 10, 10⟩
          2 "Y" 20 "watch").imported_at = some 20) :=
  ⟨rfl, c6_amended_second_mark_overwrites
    ⟨"/w/a.jpg", "watch", some 1, some "X", some 10, 10⟩ 1 rfl 2 "Y" 20 "watch"⟩

/-- Corpus lookup by checksum distributes over append. -/
theorem findByMd5_append (l1 l2 : List MediaRecord) (s : String) :
    findByMd5 (l1 ++ l2) s = (findByMd5 l1 s).or (findByMd5 l2 s) := by
  induction l1 with
  | nil => rfl
  | cons x xs ih =>
    by_cases hx : x.md5sum = s
    · simp [findByMd5, hx]
    · simp [findByMd5, hx, ih]

/-- Evaluation of `_import_media_file` on a valid, not-yet-seen file: the
media corpus grows by exactly the one new record and the outcome is
`imported` with its id. -/
theorem import_media_file_new (max_size : Nat) (hc : HandlerConfig)
    (st : EventState) (f : CandidateFile)
    (he : f.stillExists = true) (hf : f.isFile = true)
    (hs : 0 < f.size) (hm : f.size ≤ max_size)
    (hnew : findByMd5 st.mediaList (md5Hex f.content) = none) :
    (import_media_file max_size hc st f).2 = .imported st.nextMediaId
    ∧ (import_media_file max_size hc st f).1.mediaList
      = st.mediaList ++ [⟨st.nextMediaId, md5Hex f.content, hc.userName,
          (splitExtName (basename f.path)).1,
          if hc.default_state == "public" then none else some hc.default_state⟩]
    ∧ (import_media_file max_size hc st f).1.nextMediaId = st.nextMediaId + 1 := by
  rw [import_media_file, if_neg (by simp [he]), if_neg (by simp [hf]),
    if_neg (by simp [Nat.pos_iff_ne_zero.mp hs]), if_neg (by omega)]
  simp only [hnew]
  refine ⟨?_, ?_, ?_⟩
  · trivial
  · split <;> rfl
  · split <;> rfl

/-- Evaluation of `_import_media_file` on a valid file whose checksum is
already in the corpus: the corpus is unchanged and the outcome is
`duplicateSkipped` with the existing record's id. -/
theorem import_media_file_dup (max_size : Nat) (hc : HandlerConfig)
    (st : EventState) (f : CandidateFile) (m : MediaRecord)
    (he : f.stillExists = true) (hf : f.isFile = true)
    (hs : 0 < f.size) (hm : f.size ≤ max_size)
    (hdup : findByMd5 st.mediaList (md5Hex f.content) = some m) :
    (import_media_file max_size hc st f).2 = .duplicateSkipped m.id
    ∧ (import_media_file max_size hc st f).1.mediaList = st.mediaList
    ∧ (import_media_file max_size hc st f).1.nextMediaId = st.nextMediaId := by
  rw [import_media_file, if_neg (by simp [he]), if_neg (by simp [hf]),
    if_neg (by simp [Nat.pos_iff_ne_zero.mp hs]), if_neg (by omega)]
  simp only [hdup]
  refine ⟨?_, ?_, ?_⟩
  · trivial
  · split <;> rfl
  · split <;> rfl

/-- C2 (counterexample): in the poll strategy, two distinct paths with
byte-identical content produce TWO media records — `process_config` never
looks the checksum up against the corpus, it only gates on the per-path
ledger — refuting the claim that either watch strategy creates exactly one
record for identical content. -/
theorem c2_poll_creates_duplicate_content :
    (processFiles rcEx optsOnce 1 st0Ex
      [⟨"/w/a.jpg", "X"⟩, ⟨"/w/c.jpg", "X"⟩]).mediaList.length = 2
    ∧ (processFiles rcEx optsOnce 1 st0Ex
        [⟨"/w/a.jpg", "X"⟩, ⟨"/w/c.jpg", "X"⟩]).mediaList.map MediaRecord.md5sum
      = ["X", "X"] := by
  decide

/-- C2 (amended): in the event-driven strategy, two distinct valid paths
with byte-identical content produce exactly one media record: the first is
imported, and for the second the pipeline finds the computed checksum in
the corpus before any CreateMedia call, so its outcome is
`duplicateSkipped` naming the first import and the corpus is unchanged. -/
theorem c2_amended_event_content_dedup (max_size : Nat) (hc : HandlerConfig)
    (st : EventState) (f1 f2 : CandidateFile)
    (h1e : f1.stillExists = true) (h1f : f1.isFile = true)
    (h1s : 0 < f1.size) (h1m : f1.size ≤ max_size)
    (h2e : f2.stillExists = true) (h2f : f2.isFile = true)
    (h2s : 0 < f2.size) (h2m : f2.size ≤ max_size)
    (hnew : findByMd5 st.mediaList (md5Hex f1.content) = none)
    (hsame : f2.content = f1.content) :
    (import_media_file max_size hc st f1).2 = .imported st.nextMediaId
    ∧ (import_media_file max_size hc
        (import_media_file max_size hc st f1).1 f2).2
      = .duplicateSkipped st.nextMediaId
    ∧ (import_media_file max_size hc
        (import_media_file max_size hc st f1).1 f2).1.mediaList
      = (import_media_file max_size hc st f1).1.mediaList
    ∧ (import_media_file max_size hc st f1).1.mediaList.length
      = st.mediaList.length + 1 := by
  obtain ⟨hout1, hml1, _⟩ :=
    import_media_file_new max_size hc st f1 h1e h1f h1s h1m hnew
  have hdup2 : findByMd5 (import_media_file max_size hc st f1).1.mediaList
      (md5Hex f2.content)
      = some ⟨st.nextMediaId, md5Hex f1.content, hc.userName,
          (splitExtName (basename f1.path)).1,
          if hc.default_state == "public" then none else some hc.default_state⟩ := by
    rw [hml1, findByMd5_append]
    rw [show md5Hex f2.content = md5Hex f1.content from congrArg md5Hex hsame]
    rw [hnew, Option.none_or, findByMd5, if_pos rfl]
  obtain ⟨hout2, hml2, _⟩ :=
    import_media_file_dup max_size hc (import_media_file max_size hc st f1).1 f2 _
      h2e h2f h2s h2m hdup2
  refine ⟨hout1, hout2, hml2, ?_⟩
  rw [hml1, List.length_append, List.length_singleton]

/-- Witness for the amended C2: two distinct paths, identical bytes. -/
theorem c2_amended_event_content_dedup_witness :
    0 < (3 : Nat) ∧ (3 : Nat) ≤ 100
    ∧ findByMd5 est0Ex.mediaList (md5Hex "XYZ") = none
    ∧ ((import_media_file 100 hEx est0Ex ⟨"/w/a.jpg", true, true, 3, "XYZ"⟩).2
        = .imported est0Ex.nextMediaId
      ∧ (import_media_file 100 hEx
          (import_media_file 100 hEx est0Ex ⟨"/w/a.jpg", true, true, 3, "XYZ"⟩).1
          ⟨"/w/b.jpg", true, true, 3, "XYZ"⟩).2
        = .duplicateSkipped est0Ex.nextMediaId
      ∧ (import_media_file 100 hEx
          (import_media_file 100 hEx est0Ex ⟨"/w/a.jpg", true, true, 3, "XYZ"⟩).1
          ⟨"/w/b.jpg", true, true, 3, "XYZ"⟩).1.mediaList
        = (import_media_file 100 hEx est0Ex ⟨"/w/a.jpg", true, true, 3, "XYZ"⟩).1.mediaList
      ∧ (import_media_file 100 hEx est0Ex
          ⟨"/w/a.jpg", true, true, 3, "XYZ"⟩).1.mediaList.length
        = est0Ex.mediaList.length + 1) :=
  ⟨by decide, by decide, by decide,
    c2_amended_event_content_dedup 100 hEx est0Ex
      ⟨"/w/a.jpg", true, true, 3, "XYZ"⟩ ⟨"/w/b.jpg", true, true, 3, "XYZ"⟩
      rfl rfl (by decide) (by decide) rfl rfl (by decide) (by decide)
      (by decide) rfl⟩

/-- C4 (counterexample): the poll strategy performs no size validation at
all: a zero-byte file (empty content) is imported — a media record is
created for it — rather than being skipped as the claim requires of every
candidate file. -/
theorem c4_poll_imports_zero_byte_file :
    (processFiles rcEx optsOnce 1
      ⟨[], [], 0, [], [⟨"/w/z.jpg", ""⟩]⟩ [⟨"/w/z.jpg", ""⟩]).mediaList.length = 1 := by
  decide

/-- C4 (amended): in the event-driven strategy, validation enforces the
size boundary before import: a zero-byte file is skipped, a valid file
whose size is exactly the `UPLOAD_MAX_SIZE` ceiling is imported, and a
file one byte over the ceiling is skipped; each rejection is an ordinary
terminal return value of the pipeline, not a raised exception. -/
theorem c4_amended_event_size_boundary (max_size : Nat) (hc : HandlerConfig)
    (st : EventState) (f0 fAt fOver : CandidateFile)
    (h0e : f0.stillExists = true) (h0f : f0.isFile = true) (h0s : f0.size = 0)
    (hAe : fAt.stillExists = true) (hAf : fAt.isFile = true)
    (hAs : fAt.size = max_size) (hApos : 0 < max_size)
    (hAnew : findByMd5 st.mediaList (md5Hex fAt.content) = none)
    (hOe : fOver.stillExists = true) (hOf : fOver.isFile = true)
    (hOs : fOver.size = max_size + 1) :
    import_media_file max_size hc st f0 = (st, .emptyFile)
    ∧ (import_media_file max_size hc st fAt).2 = .imported st.nextMediaId
    ∧ import_media_file max_size hc st fOver = (st, .tooLarge) := by
  refine ⟨?_, ?_, ?_⟩
  · rw [import_media_file, if_neg (by simp [h0e]), if_neg (by simp [h0f]),
      if_pos (by simp [h0s])]
  · exact (import_media_file_new max_size hc st fAt hAe hAf
      (by omega) (by omega) hAnew).1
  · rw [import_media_file, if_neg (by simp [hOe]), if_neg (by simp [hOf]),
      if_neg (by simp [hOs]), if_pos (by omega)]

/-- Witness for the amended C4 with ceiling 100: sizes 0, 100 and 101. -/
theorem c4_amended_event_size_boundary_witness :
    (⟨"/w/e.jpg", true, true, 0, ""⟩ : CandidateFile).size = 0
    ∧ (⟨"/w/at.jpg", true, true, 100, "A"⟩ : CandidateFile).size = 100
    ∧ (⟨"/w/over.jpg", true, true, 101, "B"⟩ : CandidateFile).size = 100 + 1
    ∧ (import_media_file 100 hEx est0Ex ⟨"/w/e.jpg", true, true, 0, ""⟩
        = (est0Ex, .emptyFile)
      ∧ (import_media_file 100 hEx est0Ex ⟨"/w/at.jpg", true, true, 100, "A"⟩).2
        = .imported est0Ex.nextMediaId
      ∧ import_media_file 100 hEx est0Ex ⟨"/w/over.jpg", true, true, 101, "B"⟩
        = (est0Ex, .tooLarge)) :=
  ⟨rfl, rfl, rfl,
    c4_amended_event_size_boundary 100 hEx est0Ex
      ⟨"/w/e.jpg", true, true, 0, ""⟩ ⟨"/w/at.jpg", true, true, 100, "A"⟩
      ⟨"/w/over.jpg", true, true, 101, "B"⟩
      rfl rfl rfl rfl rfl rfl (by decide) (by decide) rfl rfl rfl⟩

/-- C9: post-import relocation picks the `duplicates` subdirectory of the
processed root for a duplicate file and the `imported` subdirectory for an
imported file, and when the destination name is already occupied the
timestamp suffix is inserted between the name's stem and its extension —
with the stem and extension recombining exactly to the original name. -/
theorem c9_move_processed_file_targets (pd : String)
    (occupied : List (String × String)) (file_path timestamp : String)
    (duplicate : Bool) :
    ∃ stem ext, stem ++ ext = basename file_path
    ∧ move_processed_file (some pd) occupied file_path timestamp duplicate
      = some (if duplicate then pd ++ "/duplicates" else pd ++ "/imported",
          if occupied.contains
              ((if duplicate then pd ++ "/duplicates" else pd ++ "/imported"),
                basename file_path)
            then stem ++ "_" ++ timestamp ++ ext
            else basename file_path) := by
  refine ⟨(splitExtName (basename file_path)).1, (splitExtName (basename file_path)).2,
    splitExtName_append _, ?_⟩
  simp only [move_processed_file]
  by_cases hocc : occupied.contains
      ((if duplicate then pd ++ "/duplicates" else pd ++ "/imported"),
        basename file_path) = true
  · rw [if_pos hocc, if_pos hocc]
  · rw [if_neg hocc, if_neg hocc]

/-- C10: the imported status the pipeline queries is exactly "the media
reference is non-null".  Deleting penalises nothing else: after the
referenced media object is deleted the row's checksum and imported-at
survive, yet the row reports not-imported, and a scan step on the path
passes the already-imported gate without the force flag (witnessed by the
dry-run report line it now emits). -/
theorem c10_media_deletion_reenables_import (st : PollState) (p : String)
    (e : LedgerEntry) (m : Nat) (rc : ResolvedConfig) (f : FSFile) (now : Nat)
    (hfind : findEntry st.ledger p = some e) (hm : e.media = some m)
    (hfp : f.path = p) (hfil : passesFilter rc.extensions f.path = true) :
    is_imported e = true
    ∧ findEntry (deleteMedia st m).ledger p = some { e with media := none }
    ∧ is_imported { e with media := none } = false
    ∧ ({ e with media := none } : LedgerEntry).md5sum = e.md5sum
    ∧ ({ e with media := none } : LedgerEntry).imported_at = e.imported_at
    ∧ (processFileStep rc ⟨true, true, false⟩ now (deleteMedia st m) f).reportLines
      = (deleteMedia st m).reportLines ++ ["[dry-run] Would import " ++ f.path] := by
  have hsever : severMedia m e = { e with media := none } := by
    rw [severMedia, if_pos hm]
  have hfind2 : findEntry (deleteMedia st m).ledger p = some { e with media := none } := by
    show findEntry (st.ledger.map (severMedia m)) p = _
    rw [findEntry_map_sever, hfind, Option.map_some', hsever]
  refine ⟨by rw [is_imported, hm]; rfl, hfind2, rfl, rfl, rfl, ?_⟩
  have hrec : is_imported
      (getOrCreate (deleteMedia st m).ledger f.path rc.config_name now).2.1 = false := by
    rw [is_imported, getOrCreate_media, hfp]
    rw [show mediaAt (deleteMedia st m).ledger p = none by
      rw [mediaAt]; rw [hfind2]]
    rfl
  rw [processFileStep, if_neg (by simp [hfil])]
  simp [hrec]

/-- Witness for C10: a one-row ledger whose media object is deleted. -/
theorem c10_media_deletion_reenables_import_witness :
    findEntry (PollState.mk [⟨"/w/a.jpg", "watch", some 0, some "X", some 1, 1⟩]
        [⟨0, "X", "alice", "a", none⟩] 1 [] fsEx).ledger "/w/a.jpg"
      = some ⟨"/w/a.jpg", "watch", some 0, some "X", some 1, 1⟩
    ∧ passesFilter rcEx.extensions "/w/a.jpg" = true
    ∧ (is_imported ⟨"/w/a.jpg", "watch", some 0, some "X", some 1, 1⟩ = true
      ∧ findEntry (deleteMedia (PollState.mk
            [⟨"/w/a.jpg", "watch", some 0, some "X", some 1, 1⟩]
            [⟨0, "X", "alice", "a", none⟩] 1 [] fsEx) 0).ledger "/w/a.jpg"
        = some ⟨"/w/a.jpg", "watch", none, some "X", some 1, 1⟩
      ∧ is_imported ⟨"/w/a.jpg", "watch", none, some "X", some 1, 1⟩ = false
      ∧ (⟨"/w/a.jpg", "watch", none, some "X", some 1, 1⟩ : LedgerEntry).md5sum = some "X"
      ∧ (⟨"/w/a.jpg", "watch", none, some "X", some 1, 1⟩ : LedgerEntry).imported_at = some 1
      ∧ (processFileStep rcEx ⟨true, true, false⟩ 2
          (deleteMedia (PollState.mk
            [⟨"/w/a.jpg", "watch", some 0, some "X", some 1, 1⟩]
            [⟨0, "X", "alice", "a", none⟩] 1 [] fsEx) 0) ⟨"/w/a.jpg", "X"⟩).reportLines
        = (deleteMedia (PollState.mk
            [⟨"/w/a.jpg", "watch", some 0, some "X", some 1, 1⟩]
            [⟨0, "X", "alice", "a", none⟩] 1 [] fsEx) 0).reportLines
          ++ ["[dry-run] Would import " ++ "/w/a.jpg"]) :=
  ⟨by decide, by decide,
    c10_media_deletion_reenables_import
      (PollState.mk [⟨"/w/a.jpg", "watch", some 0, some "X", some 1, 1⟩]
        [⟨0, "X", "alice", "a", none⟩] 1 [] fsEx)
      "/w/a.jpg" ⟨"/w/a.jpg", "watch", some 0, some "X", some 1, 1⟩ 0
      rcEx ⟨"/w/a.jpg", "X"⟩ 2 (by decide) rfl rfl (by decide)⟩

/-- C8 (counterexample): in the poll command, one invalid configuration
(a missing watch directory) aborts the whole run — the `CommandError` is
re-raised by `handle` — so the valid sibling configuration after it is
never processed, even though on its own it would import its file. -/
theorem c8_config_error_aborts_siblings :
    handleOnce optsOnce 1 [badCfgEx, goodCfgEx] st0Ex
      = Except.error "Watch directory does not exist: /missing"
    ∧ (match handleOnce optsOnce 1 [goodCfgEx] st0Ex with
       | Except.ok st1 => st1.mediaList.length = 1
       | Except.error _ => False) := by
  constructor
  · rfl
  · show (1 : Nat) = 1
    rfl

/-- C8 (amended): in the event-driven monitor, a directory that fails
validation is skipped and sessions start for every valid directory, while
zero valid directories (or an empty configuration) is a hard startup
failure; in the poll command, by contrast, a configuration error for one
configuration aborts the entire run, so sibling configurations after it
are not processed. -/
theorem c8_amended_partial_failure (cfg : MonitorConfig)
    (huser : cfg.watchUserSet = true) (hfound : cfg.watchUserFound = true)
    (hmove : cfg.move_after_import = false)
    (bad : WatchConfigRaw) (rest : List WatchConfigRaw) (opts : Options)
    (now : Nat) (st : PollState) (msg : String)
    (hbad : process_config bad opts now st = .error msg) :
    monitorStart cfg
      = (if cfg.watchDirs.isEmpty then none
         else if (cfg.watchDirs.filter dirValid).isEmpty then none
         else some ((cfg.watchDirs.filter dirValid).map (fun d => d.path)))
    ∧ handleOnce opts now (bad :: rest) st = .error msg := by
  constructor
  · rw [monitorStart, huser, hfound, hmove]
    by_cases hempty : cfg.watchDirs.isEmpty = true
    · rw [if_pos hempty, if_pos hempty]
    · rw [if_neg hempty, if_neg hempty, if_neg (by simp), if_neg (by simp)]
      by_cases hvalid : (cfg.watchDirs.filter dirValid).isEmpty = true
      · rw [if_pos hvalid, if_pos hvalid]
      · rw [if_neg hvalid, if_neg hvalid, if_neg (by simp), if_neg (by simp)]
  · rw [handleOnce, hbad]

/-- Witness for the amended C8: one valid and one unreadable directory
(sessions start on the valid one alone), with the counterexample's bad and
good poll configurations. -/
theorem c8_amended_partial_failure_witness :
    (MonitorConfig.mk [⟨"/w1", true, true, true⟩, ⟨"/bad", false, false, false⟩]
      true true false true true).watchUserSet = true
    ∧ process_config badCfgEx optsOnce 1 st0Ex
      = Except.error "Watch directory does not exist: /missing"
    ∧ (monitorStart (MonitorConfig.mk
          [⟨"/w1", true, true, true⟩, ⟨"/bad", false, false, false⟩]
          true true false true true)
        = (if (MonitorConfig.mk [⟨"/w1", true, true, true⟩, ⟨"/bad", false, false, false⟩]
              true true false true true).watchDirs.isEmpty then none
           else if ((MonitorConfig.mk [⟨"/w1", true, true, true⟩, ⟨"/bad", false, false, false⟩]
              true true false true true).watchDirs.filter dirValid).isEmpty then none
           else some (((MonitorConfig.mk [⟨"/w1", true, true, true⟩, ⟨"/bad", false, false, false⟩]
              true true false true true).watchDirs.filter dirValid).map (fun d => d.path)))
      ∧ handleOnce optsOnce 1 (badCfgEx :: [goodCfgEx]) st0Ex
        = .error "Watch directory does not exist: /missing") :=
  ⟨rfl, rfl,
    c8_amended_partial_failure
      (MonitorConfig.mk [⟨"/w1", true, true, true⟩, ⟨"/bad", false, false, false⟩]
        true true false true true)
      rfl rfl rfl badCfgEx [goodCfgEx] optsOnce 1 st0Ex
      "Watch directory does not exist: /missing" rfl⟩

/-- Running a trace splits over append. -/
theorem runTrace_append (w : Nat) (exts : List String) (st : DebounceState)
    (l1 l2 : List WatchAct) :
    runTrace w exts st (l1 ++ l2) = runTrace w exts (runTrace w exts st l1) l2 :=
  List.foldl_append ..

/-- A worker wakeup strictly less than the window after the only pending
event leaves the debouncer unchanged (the path is not yet due). -/
theorem process_tick_not_due (w : Nat) (p : String) (e : Nat)
    (E : List (String × Nat)) (t : Nat) (hw : 0 < w) (ht : t < e + w) :
    process_tick w ⟨[(p, e)], E⟩ t = ⟨[(p, e)], E⟩ := by
  have hlt : ¬ (w ≤ t - e) := by omega
  simp [process_tick, hlt]

/-- A run of not-yet-due wakeups leaves the debouncer unchanged. -/
theorem runTrace_ticks_not_due (w : Nat) (exts : List String) (p : String)
    (hw : 0 < w) :
    ∀ (ts : List Nat) (e : Nat) (E : List (String × Nat)),
      (∀ t ∈ ts, t < e + w) →
      runTrace w exts ⟨[(p, e)], E⟩ (ts.map WatchAct.tick) = ⟨[(p, e)], E⟩
  | [], _, _, _ => rfl
  | t :: ts, e, E, h => by
    show runTrace w exts (process_tick w ⟨[(p, e)], E⟩ t) (ts.map WatchAct.tick) = _
    rw [process_tick_not_due w p e E t hw (h t (List.mem_cons_self t ts))]
    exact runTrace_ticks_not_due w exts p hw ts e E
      (fun u hu => h u (List.mem_cons_of_mem t hu))

/-- Wakeups on an empty pending map do nothing. -/
theorem runTrace_ticks_empty (w : Nat) (exts : List String) :
    ∀ (ts : List Nat) (E : List (String × Nat)),
      runTrace w exts ⟨[], E⟩ (ts.map WatchAct.tick) = ⟨[], E⟩
  | [], _ => rfl
  | t :: ts, E => by
    show runTrace w exts (process_tick w ⟨[], E⟩ t) (ts.map WatchAct.tick) = _
    have : process_tick w ⟨[], E⟩ t = ⟨[], E⟩ := by simp [process_tick]
    rw [this]
    exact runTrace_ticks_empty w exts ts E

/-- An eligible file event re-arms the single pending entry for its path. -/
theorem on_event_rearm (exts : List String) (p : String) (e t : Nat)
    (E : List (String × Nat)) (hp : should_process_file exts p = true) :
    on_event exts ⟨[(p, e)], E⟩ p false t = ⟨[(p, t)], E⟩ := by
  simp [on_event, setPending, hp]

/-- Through the interleaved middle of a chronologically well-formed burst,
the debouncer keeps exactly one pending entry for the path — re-armed to
the latest event time — and emits nothing. -/
theorem runTrace_mid (w : Nat) (exts : List String) (p : String)
    (hw : 0 < w) (hp : should_process_file exts p = true) :
    ∀ (mid : List (List Nat × Nat)) (e : Nat) (E : List (String × Nat)),
      midOK w e mid = true →
      runTrace w exts ⟨[(p, e)], E⟩ (midTrace p mid)
        = ⟨[(p, lastEvent e mid)], E⟩
  | [], _, _, _ => rfl
  | seg :: rest, e, E, h => by
    obtain ⟨⟨⟨hticks, _⟩, _⟩, hrest⟩ :
        ((seg.1.all (fun t => decide (t < e + w)) = true ∧ (e ≤ seg.2))
          ∧ (seg.2 < e + w)) ∧ midOK w seg.2 rest = true := by
      simpa [midOK, Bool.and_eq_true] using h
    show runTrace w exts ⟨[(p, e)], E⟩
      ((seg.1.map WatchAct.tick ++ [WatchAct.event p false seg.2]) ++ midTrace p rest)
      = ⟨[(p, lastEvent seg.2 rest)], E⟩
    rw [runTrace_append, runTrace_append]
    rw [runTrace_ticks_not_due w exts p hw seg.1 e E
      (by intro t ht; simpa using List.all_eq_true.mp hticks t ht)]
    show runTrace w exts (on_event exts ⟨[(p, e)], E⟩ p false seg.2) (midTrace p rest) = _
    rw [on_event_rearm exts p e seg.2 E hp]
    exact runTrace_mid w exts p hw hp rest seg.2 E hrest

/-- Over the trailing wakeups of a burst, the first wakeup at or after one
window past the last event releases the path: exactly one settle
notification is appended, timed at least one window after the last event,
and the pending entry is gone. -/
theorem runTrace_suffix (w : Nat) (exts : List String) (p : String) (hw : 0 < w) :
    ∀ (ts : List Nat) (eN : Nat) (E : List (String × Nat)),
      (∃ t ∈ ts, eN + w ≤ t) →
      ∃ t', runTrace w exts ⟨[(p, eN)], E⟩ (ts.map WatchAct.tick)
          = ⟨[], E ++ [(p, t')]⟩ ∧ eN + w ≤ t'
  | [], eN, E, h => absurd h (by simp)
  | t :: ts, eN, E, h => by
    by_cases hdue : w ≤ t - eN
    · refine ⟨t, ?_, by omega⟩
      show runTrace w exts (process_tick w ⟨[(p, eN)], E⟩ t) (ts.map WatchAct.tick)
        = ⟨[], E ++ [(p, t)]⟩
      have hstep : process_tick w ⟨[(p, eN)], E⟩ t = ⟨[], E ++ [(p, t)]⟩ := by
        simp [process_tick, hdue]
      rw [hstep]
      exact runTrace_ticks_empty w exts ts (E ++ [(p, t)])
    · have hnext : ∃ u ∈ ts, eN + w ≤ u := by
        obtain ⟨u, hu, hule⟩ := h
        rcases List.mem_cons.mp hu with hut | huts
        · subst hut; omega
        · exact ⟨u, huts, hule⟩
      obtain ⟨t', ht', hle⟩ := runTrace_suffix w exts p hw ts eN E hnext
      refine ⟨t', ?_, hle⟩
      show runTrace w exts (process_tick w ⟨[(p, eN)], E⟩ t) (ts.map WatchAct.tick)
        = ⟨[], E ++ [(p, t')]⟩
      rw [process_tick_not_due w p eN E t hw (by omega)]
      exact ht'

/-- C5: a chronologically ordered burst of N eligible create/modify events
for one path, each consecutive pair less than the debounce window apart
(`midOK`), with worker wakeups interleaved, followed by trailing wakeups
at least one of which is a full window after the last event, produces
EXACTLY ONE settle notification — and that notification is timed at least
one window after the LAST event of the burst, never earlier (every wakeup
before the last event finds the entry re-armed and leaves it pending). -/
theorem c5_debounce_exactly_one_settle (w : Nat) (exts : List String) (p : String)
    (e1 : Nat) (mid : List (List Nat × Nat)) (suffix : List Nat)
    (hw : 0 < w) (hp : should_process_file exts p = true)
    (hmid : midOK w e1 mid = true)
    (hsuffix : ∃ t ∈ suffix, lastEvent e1 mid + w ≤ t) :
    ∃ t', runTrace w exts ⟨[], []⟩ (burstTrace p e1 mid suffix)
        = ⟨[], [(p, t')]⟩ ∧ lastEvent e1 mid + w ≤ t' := by
  obtain ⟨t', ht', hle⟩ :=
    runTrace_suffix w exts p hw suffix (lastEvent e1 mid) [] hsuffix
  refine ⟨t', ?_, hle⟩
  show runTrace w exts (on_event exts ⟨[], []⟩ p false e1)
    (midTrace p mid ++ suffix.map WatchAct.tick) = ⟨[], [(p, t')]⟩
  have hfirst : on_event exts ⟨[], []⟩ p false e1 = ⟨[(p, e1)], []⟩ := by
    simp [on_event, setPending, hp]
  rw [hfirst, runTrace_append, runTrace_mid w exts p hw hp mid e1 [] hmid, ht']
  rfl

/-- Witness for C5: three events at 0, 4 and 8 (window 5), wakeups at 2
and 6 between them and at 3, 9 and 20 after; the single settle fires at
time 13 ≥ 8 + 5. -/
theorem c5_debounce_exactly_one_settle_witness :
    0 < 5 ∧ should_process_file [] "a.jpg" = true
    ∧ midOK 5 0 [([2], 4), ([6], 8)] = true
    ∧ (∃ t ∈ [9, 13, 20], lastEvent 0 [([2], 4), ([6], 8)] + 5 ≤ t)
    ∧ ∃ t', runTrace 5 [] ⟨[], []⟩ (burstTrace "a.jpg" 0 [([2], 4), ([6], 8)] [9, 13, 20])
        = ⟨[], [("a.jpg", t')]⟩ ∧ lastEvent 0 [([2], 4), ([6], 8)] + 5 ≤ t' :=
  ⟨by decide, by decide, by decide, by decide,
    c5_debounce_exactly_one_settle 5 [] "a.jpg" 0 [([2], 4), ([6], 8)] [9, 13, 20]
      (by decide) (by decide) (by decide) (by decide)⟩

end MediaWatch
